/-
  Verification of the nekkus-eye system-metrics probe (Go) against its
  natural-language specification.

  Shallow embedding conventions:
  * Go float64 values are modelled as rationals (ℚ); the claims checked here
    concern control flow, clamping, filtering, ordering and degradation to
    zero, none of which depends on binary floating-point rounding.
  * Go uint64 is modelled as Nat (with an explicit 2^64 cap where the Go
    library saturates), Go int / int32 / int64 as Int.
  * Fallible Go calls `v, err := f()` are modelled as `Option` results
    supplied by the environment (the OS): `none` is the error case.
  * The Collector's background goroutine and its lock discipline are
    modelled as a step relation over an explicit state, with the
    lock-guarded single assignment of the snapshot as one atomic event.
-/
import Mathlib

namespace NekkusEye

/-! ### Go string primitives used by the probe

Models of the Go standard-library string functions the source calls:
`strings.Contains`, `strings.ToLower`, `strings.TrimSpace`,
`strings.TrimSuffix`, `strings.Trim(s, cutset)`, `strings.Split`,
`filepath.Base`, `strconv.Atoi`, `strconv.ParseUint`, `strconv.ParseFloat`
(decimal subset), `fmt.Sprintf("PID %d", pid)`. -/

/-- Does the character list start with the given needle? (helper for
substring containment, mirroring `strings.Contains`). -/
def charsStartWith : List Char → List Char → Bool
  | _, [] => true
  | [], _ :: _ => false
  | a :: as, b :: bs => a == b && charsStartWith as bs

/-- Does the character list contain the needle as a contiguous run? -/
def charsHaveSub : List Char → List Char → Bool
  | [], needle => needle.isEmpty
  | a :: as, needle => charsStartWith (a :: as) needle || charsHaveSub as needle

/-- Model of Go `strings.Contains s sub`. -/
def goContains (s sub : String) : Bool :=
  charsHaveSub s.toList sub.toList

/-- Model of Go `strings.ToLower` (character-wise lowering; faithful on the
ASCII process names and queries the probe handles). -/
def goToLower (s : String) : String :=
  String.mk (s.toList.map Char.toLower)

/-- Model of Go `strings.TrimSpace` (drop leading and trailing whitespace). -/
def goTrimSpace (s : String) : String :=
  String.mk (((s.toList.dropWhile Char.isWhitespace).reverse.dropWhile
    Char.isWhitespace).reverse)

/-- Model of Go `strings.TrimSuffix s suf`: drop one trailing copy of `suf`
when present. -/
def goTrimSuffix (s suf : String) : String :=
  if charsStartWith s.toList.reverse suf.toList.reverse then
    String.mk (s.toList.take (s.toList.length - suf.toList.length))
  else s

/-- Model of Go `strings.Trim(s, cutset)` for a one-character cutset `c`:
drop all leading and trailing occurrences of `c`. -/
def goTrimChar (s : String) (c : Char) : String :=
  String.mk (((s.toList.dropWhile (· == c)).reverse.dropWhile (· == c)).reverse)

/-- Model of Go `filepath.Base` with the Unix path separator, following the
standard-library algorithm: empty path gives ".", trailing separators are
stripped, an all-separator path gives "/", otherwise the component after
the last separator (computed on the reversed character list: drop the
trailing separators, then take up to the last separator). -/
def filepathBase (path : String) : String :=
  if path = "" then "."
  else if path.toList.reverse.dropWhile (· == '/') = [] then "/"
  else String.mk
    (((path.toList.reverse.dropWhile (· == '/')).takeWhile (· != '/')).reverse)

/-- Digits-only parse used by the `strconv` models: `some` of the value when
the string is a nonempty run of decimal digits, else `none`. -/
def parseDigits (cs : List Char) : Option Nat :=
  if cs = [] then none
  else if cs.all Char.isDigit then
    some (cs.foldl (fun acc c => acc * 10 + (c.toNat - 48)) 0)
  else none

/-- Model of Go `strconv.Atoi`: optional sign followed by digits. -/
def goAtoi (s : String) : Option Int :=
  match s.toList with
  | '-' :: rest => (parseDigits rest).map (fun n => -(n : Int))
  | '+' :: rest => (parseDigits rest).map (fun n => (n : Int))
  | cs => (parseDigits cs).map (fun n => (n : Int))

/-- Model of Go `strconv.ParseUint(s, 10, 64)` as the source uses it with
the error ignored: digits parse to their value saturated at 2^64 - 1 (Go
returns MaxUint64 on range error), anything else yields 0 (Go returns 0 on
syntax error). -/
def goParseUint64Val (s : String) : Nat :=
  match parseDigits s.toList with
  | some n => if n < 2 ^ 64 then n else 2 ^ 64 - 1
  | none => 0

/-- Model of Go `strconv.ParseFloat` on the decimal subset the probe meets
(optional sign, digits, optional fractional digits), as the source uses it
with the error ignored: a malformed string yields 0 (Go returns 0 on syntax
error). Values are rationals. -/
def goParseFloatVal (s : String) : ℚ :=
  let core : List Char → Option ℚ := fun cs =>
    match cs.splitOn '.' with
    | [intPart] => (parseDigits intPart).map (fun n => (n : ℚ))
    | [intPart, fracPart] =>
        match parseDigits intPart, parseDigits fracPart with
        | some n, some f => some ((n : ℚ) + (f : ℚ) / (10 : ℚ) ^ fracPart.length)
        | _, _ => none
    | _ => none
  let signed : Option ℚ :=
    match s.toList with
    | '-' :: rest => (core rest).map (fun q => -q)
    | '+' :: rest => core rest
    | cs => core cs
  signed.getD 0

/-- Splitting a character list at every non-overlapping, leftmost-first
occurrence of the two-character separator ", " — the behaviour of Go
`strings.Split(line, ", ")`, which always yields at least one part. -/
def splitCommaSpace : List Char → List (List Char)
  | [] => [[]]
  | ',' :: ' ' :: rest => [] :: splitCommaSpace rest
  | c :: rest =>
    match splitCommaSpace rest with
    | [] => [[c]]
    | part :: parts => (c :: part) :: parts

/-- Model of Go `strings.Split s ", "` (the separator the GPU probe uses). -/
def goSplitCommaSpace (s : String) : List String :=
  (splitCommaSpace s.toList).map String.mk

/-- Model of `fmt.Sprintf("PID %d", pid)`. -/
def sprintfPID (pid : Int) : String :=
  "PID " ++ toString pid

/-! ### Process lister (src/unnamed/part_003, `ListProcesses` /
`ListTopProcessesByCPU`)

`Proc` models one process handle as gopsutil reports it: each fallible
accessor of the Go API becomes an `Option` field supplied by the OS.
`p.Name()` is called with its error ignored (`name, _ := p.Name()`), so it
is modelled as the plain string Go leaves in `name` (empty on error). -/

structure Proc where
  pid : Int
  name : String
  exeRes : Option String
  memRSS : Option Nat
  statusRes : Option (List String)
  cpuRes : Option ℚ
  connRes : Option Nat
deriving DecidableEq, Repr

/-- `ProcessInfo` from src/unnamed/part_003: the record returned to the API. -/
structure ProcessInfo where
  PID : Int
  Name : String
  RSSMB : Nat
  Status : String
  CPUPercent : ℚ
  ConnectionsCount : Nat
deriving DecidableEq, Repr

/-- The executable-basename fallback (part_003 lines 49-51): the basename
of `p.Exe()` when it succeeds with a non-empty path, else the empty string
the Go code leaves in `name`. -/
def exeBaseName (p : Proc) : String :=
  match p.exeRes with
  | some exe => if exe ≠ "" then filepathBase exe else ""
  | none => ""

/-- The name-resolution fallback chain shared by `ListProcesses` and
`ListTopProcessesByCPU` (part_003 lines 47-58 and 98-106): reported name,
else basename of the executable when `p.Exe()` succeeds with a non-empty
path, else "PID <pid>". -/
def resolveName (p : Proc) : String :=
  if p.name ≠ "" then p.name
  else if exeBaseName p ≠ "" then exeBaseName p
  else sprintfPID p.pid

/-- Builds the `ProcessInfo` record for one accepted process, mirroring
part_003 lines 59-75: RSS and status are best-effort, CPU% and connection
count are attached only `withMetrics`. -/
def mkInfo (p : Proc) (name : String) (withMetrics : Bool) : ProcessInfo :=
  { PID := p.pid
    Name := name
    RSSMB := (p.memRSS.map (fun rss => rss / (1024 * 1024))).getD 0
    Status :=
      match p.statusRes with
      | some (st :: _) => st
      | _ => ""
    CPUPercent := if withMetrics then (p.cpuRes.getD 0) else 0
    ConnectionsCount := if withMetrics then (p.connRes.getD 0) else 0 }

/-- The limit clamp at the top of `ListProcesses` (part_003 lines 28-36). -/
def clampListLimit (limit : Int) (withMetrics : Bool) : Int :=
  let l1 := if limit ≤ 0 then 200 else limit
  let l2 := if l1 > 500 then 500 else l1
  if withMetrics && l2 > 100 then 100 else l2

/-- The enumeration loop of `ListProcesses` (part_003 lines 43-76), with the
`len(out) >= limit` break carried as the remaining count. `query` is already
lowered and trimmed here, as in the Go code. -/
def listLoop (query : String) (withMetrics : Bool) :
    Int → List Proc → List ProcessInfo
  | _, [] => []
  | remaining, p :: rest =>
    if remaining ≤ 0 then []
    else if query ≠ "" && !goContains (goToLower (resolveName p)) query then
      listLoop query withMetrics remaining rest
    else
      mkInfo p (resolveName p) withMetrics ::
        listLoop query withMetrics (remaining - 1) rest

/-- `ListProcesses` from src/unnamed/part_003 over the OS-supplied process
table; the `process.Processes()` error case returns no list and is outside
the listing claims, so the table is a plain argument. -/
def ListProcesses (limit : Int) (query : String) (withMetrics : Bool)
    (procs : List Proc) : List ProcessInfo :=
  let limit := clampListLimit limit withMetrics
  let query := goTrimSpace (goToLower query)
  listLoop query withMetrics limit procs

/-- The scored entry `ListTopProcessesByCPU` sorts (part_003 lines 92-95). -/
structure Scored where
  info : ProcessInfo
  score : ℚ
deriving DecidableEq, Repr

/-- Builds the scored entry for one process with measured positive CPU%
(part_003 lines 111-115): name resolved by the same fallback chain, CPU%
attached, RSS best-effort. -/
def mkScored (p : Proc) (pct : ℚ) : Scored :=
  { info :=
      { PID := p.pid
        Name := resolveName p
        RSSMB := (p.memRSS.map (fun rss => rss / (1024 * 1024))).getD 0
        Status := ""
        CPUPercent := pct
        ConnectionsCount := 0 }
    score := pct }

/-- The order `sort.Slice` establishes with the comparator
`score[i] > score[j]` (part_003 line 117): in the sorted slice every later
element's score is at most every earlier one's. -/
def scoredGE (a b : Scored) : Prop := b.score ≤ a.score

instance : DecidableRel scoredGE := fun a b =>
  inferInstanceAs (Decidable (b.score ≤ a.score))

instance : IsTotal Scored scoredGE := ⟨fun a b => le_total b.score a.score⟩

instance : IsTrans Scored scoredGE :=
  ⟨fun _ _ _ h1 h2 => le_trans h2 h1⟩

/-- Model of `sort.Slice(scoredList, less)` at part_003 line 117 as an
insertion sort for `scoredGE`. `sort.Slice` is unstable, so the order of
equal scores is unspecified in Go; the properties proved below (length,
membership, non-increasing scores) are comparator-level facts that hold for
any sort consistent with the comparator. -/
def sortDesc (l : List Scored) : List Scored :=
  List.insertionSort scoredGE l

/-- The limit clamp at the top of `ListTopProcessesByCPU` (part_003
lines 82-87). -/
def clampTopLimit (limit : Int) : Int :=
  let l1 := if limit ≤ 0 then 5 else limit
  if l1 > 20 then 20 else l1

/-- `ListTopProcessesByCPU` from src/unnamed/part_003: keep processes whose
CPU% query succeeds with a positive value, sort by CPU% descending, truncate
to the clamped limit. -/
def ListTopProcessesByCPU (limit : Int) (procs : List Proc) : List ProcessInfo :=
  let l := clampTopLimit limit
  let scoredList := procs.filterMap (fun p =>
    match p.cpuRes with
    | none => none
    | some pct => if pct ≤ 0 then none else some (mkScored p pct))
  ((sortDesc scoredList).take l.toNat).map Scored.info

/-! ### GPU probe (src/unnamed/part_003, `getGPUStats` / `parseMiB`)

The external `nvidia-smi` invocation is modelled by its observable result:
`none` when `cmd.Run()` returns an error (missing executable, timeout via
the 3-second context, nonzero exit), `some out` with the captured stdout on
success. -/

structure GPUStats where
  UtilPercent : ℚ
  Name : String
  TempC : Int
  MemoryUsedMB : Nat
  MemoryTotalMB : Nat
deriving DecidableEq, Repr

/-- The all-zero `GPUStats{}` value Go returns on every failure path. -/
def zeroGPUStats : GPUStats :=
  { UtilPercent := 0, Name := "", TempC := 0, MemoryUsedMB := 0, MemoryTotalMB := 0 }

/-- `parseMiB` from part_003 lines 214-218, with the caller's ignored error
(`memUsed, _ = parseMiB(...)`) folded in: the Go zero value 0 stands when
the parse fails. -/
def parseMiB (s : String) : Nat :=
  goParseUint64Val (goTrimSuffix (goTrimSpace s) " MiB")

/-- The first token of `bufio.Scanner` over the captured stdout: `none` when
the output is empty (`!scanner.Scan()`), otherwise the first line with a
trailing carriage return stripped, as `bufio.ScanLines` yields it. -/
def firstScanLine (out : String) : Option String :=
  if out = "" then none
  else
    let line := out.toList.takeWhile (· != '\n')
    some (String.mk (if line.getLast? = some '\r' then line.dropLast else line))

/-- The positional parsing of the split line, part_003 lines 178-211: each
field comes from its own position with a per-field default when the
position is missing or malformed (`pct, _ := ParseFloat`; `temp` only
updated when `Atoi` succeeds; `memUsed, _ = parseMiB`). The `len(parts) < 1`
guard of line 178 is kept although `strings.Split` never returns an empty
slice. -/
def parseGPUParts (parts : List String) : GPUStats :=
  if parts.length < 1 then zeroGPUStats
  else
    { UtilPercent :=
        goParseFloatVal (goTrimSpace (goTrimSuffix (goTrimSpace (parts.headD "")) "%"))
      Name :=
        if parts.length > 1 then goTrimChar (goTrimSpace (parts.getD 1 "")) (Char.ofNat 34)
        else ""
      TempC :=
        if parts.length > 2 then
          match goAtoi (goTrimSpace (goTrimSuffix (goTrimSpace (parts.getD 2 "")) " C")) with
          | some t => t
          | none => 0
        else 0
      MemoryUsedMB := if parts.length > 3 then parseMiB (parts.getD 3 "") else 0
      MemoryTotalMB := if parts.length > 4 then parseMiB (parts.getD 4 "") else 0 }

/-- `getGPUStats` from src/unnamed/part_003 lines 156-212: failure of the
command (missing tool, 3-second timeout, nonzero exit) or empty output
degrade to the zero sample; otherwise the first line is trimmed, split on
", " and parsed positionally. -/
def getGPUStats (cmdResult : Option String) : GPUStats :=
  match cmdResult with
  | none => zeroGPUStats
  | some out =>
    match firstScanLine out with
    | none => zeroGPUStats
    | some rawLine => parseGPUParts (goSplitCommaSpace (goTrimSpace rawLine))

/-! ### Snapshot and Collector (src/internal/monitor/monitor.go)

`Stats` is the snapshot record; its Go zero value (what a freshly allocated
`Collector` holds in `last` before the first `collect()`) is `zeroStats`. -/

structure Stats where
  CPUPercent : ℚ
  CPUModelName : String
  CPUMhz : ℚ
  CPUCores : Int
  CPUPhysicalCores : Int
  MemoryPercent : ℚ
  MemoryUsedMB : Nat
  MemoryTotalMB : Nat
  MemoryFreeMB : Nat
  MemoryAvailableMB : Nat
  SwapTotalMB : Nat
  SwapUsedMB : Nat
  SwapFreeMB : Nat
  DiskPercent : ℚ
  DiskUsedGB : Nat
  DiskTotalGB : Nat
  DiskFreeGB : Nat
  DiskPath : String
  GPUPercent : ℚ
  GPUName : String
  GPUTempC : Int
  GPUMemoryUsedMB : Nat
  GPUMemoryTotalMB : Nat
  Hostname : String
  Platform : String
  OS : String
  KernelArch : String
  KernelVersion : String
  UptimeSec : Nat
  ProcessCount : Int
  NetBytesSent : Nat
  NetBytesRecv : Nat
  Timestamp : Int
deriving DecidableEq, Repr

/-- The Go zero value of `Stats`. -/
def zeroStats : Stats :=
  { CPUPercent := 0, CPUModelName := "", CPUMhz := 0, CPUCores := 0
    CPUPhysicalCores := 0, MemoryPercent := 0, MemoryUsedMB := 0
    MemoryTotalMB := 0, MemoryFreeMB := 0, MemoryAvailableMB := 0
    SwapTotalMB := 0, SwapUsedMB := 0, SwapFreeMB := 0, DiskPercent := 0
    DiskUsedGB := 0, DiskTotalGB := 0, DiskFreeGB := 0, DiskPath := ""
    GPUPercent := 0, GPUName := "", GPUTempC := 0, GPUMemoryUsedMB := 0
    GPUMemoryTotalMB := 0, Hostname := "", Platform := "", OS := ""
    KernelArch := "", KernelVersion := "", UptimeSec := 0, ProcessCount := 0
    NetBytesSent := 0, NetBytesRecv := 0, Timestamp := 0 }

/-- Observable events of one `Collector`'s execution, at the granularity the
source's lock discipline gives:
* `publish s` — one `collect()` call completing: the sampling work reads
  only external OS state, then `c.mu.Lock(); c.last = s; c.mu.Unlock()`
  replaces the cached snapshot in a single assignment (monitor.go 192-228),
  so the whole replacement is one atomic event;
* `stopSignal` — `Stop()` closing the `stop` channel (monitor.go 239-241);
* `observeStop` — the loop's `select` taking the `<-c.stop` case and
  returning (monitor.go 81-83). -/
inductive Event where
  | publish (s : Stats)
  | stopSignal
  | observeStop
deriving DecidableEq, Repr

/-- Collector state: the cached snapshot plus the stop-channel flag and
whether the loop goroutine has exited. -/
structure CollectorState where
  last : Stats
  stopSignaled : Bool
  loopExited : Bool
deriving DecidableEq, Repr

/-- The state `NewCollector` (monitor.go 70-75) hands back: `last` is the
zero `Stats`, the stop channel is open, and the loop goroutine — started
with `go c.loop()` — has not yet exited. The first `collect()` is the first
statement of `loop()`, but it runs in the goroutine, after `NewCollector`
has already returned. -/
def newCollectorState : CollectorState :=
  { last := zeroStats, stopSignaled := false, loopExited := false }

/-- One event's effect on the collector state. A `publish` after the loop
has exited is a no-op (the loop is the only writer); `observeStop` takes
effect only once the stop channel is closed. -/
def stepEvent (sigma : CollectorState) (e : Event) : CollectorState :=
  match e with
  | .publish s => if sigma.loopExited then sigma else { sigma with last := s }
  | .stopSignal => { sigma with stopSignaled := true }
  | .observeStop =>
      if sigma.stopSignaled then { sigma with loopExited := true } else sigma

/-- Run an event interleaving from the post-construction state. -/
def runEvents (es : List Event) : CollectorState :=
  es.foldl stepEvent newCollectorState

/-- `Get()` (monitor.go 232-236): returns a copy of the cached snapshot
under the read lock. -/
def CollectorGet (sigma : CollectorState) : Stats :=
  sigma.last

/-- The snapshots published along an interleaving. -/
def publishedSnapshots (es : List Event) : List Stats :=
  es.filterMap (fun e =>
    match e with
    | .publish s => some s
    | _ => none)

/-- The event sequence the loop goroutine itself emits when it is never
stopped (monitor.go 77-88): `collect()` is the first statement of `loop()`,
before the `select` waits for any tick, and each later ticker tick publishes
one more sample. A stopped loop emits a prefix of this sequence. -/
def loopEvents (first : Stats) (tickSamples : List Stats) : List Event :=
  Event.publish first :: tickSamples.map Event.publish

/-! ### RPC Health (src/unnamed/part_007, `EyeModule.Health`) -/

/-- The health triple of `pb.HealthStatus` as `EyeModule.Health` fills it. -/
structure HealthStatus where
  healthy : Bool
  message : String
  details : List (String × String)
deriving DecidableEq, Repr

/-- Model of `fmt.Sprintf("%.1f", x)` on the sampled value: one decimal
digit, rounding to nearest. Both sides of the Health theorem use this same
rendering, so the claims below do not depend on its rounding convention. -/
def fmtF1 (q : ℚ) : String :=
  let n : Int := round (q * 10)
  let sign := if n < 0 then "-" else ""
  let a := n.natAbs
  sign ++ toString (a / 10) ++ "." ++ toString (a % 10)

/-- `EyeModule.Health` from src/unnamed/part_007 lines 45-55, applied to the
snapshot `m.collector.Get()` returned: constant `Healthy: true` and
`Message: "ok"`, with a details map rendering the snapshot's CPU and memory
percentages. -/
def Health (s : Stats) : HealthStatus :=
  { healthy := true
    message := "ok"
    details :=
      [("cpu_percent", fmtF1 s.CPUPercent),
       ("memory_percent", fmtF1 s.MemoryPercent)] }

/-! ### Helper lemmas -/

/-- A string built from a nonempty character list is nonempty. -/
theorem stringMk_ne_empty (l : List Char) (h : l ≠ []) : String.mk l ≠ "" := by
  intro he
  apply h
  have : (String.mk l).data = (String.mk []).data := by
    rw [show ("" : String) = String.mk [] from rfl] at he
    rw [he]
  simpa using this

/-- The first element surviving `dropWhile p` fails the predicate. -/
theorem dropWhile_head_false (p : Char → Bool) :
    ∀ (l : List Char) (c : Char) (cs : List Char),
      l.dropWhile p = c :: cs → p c = false := by
  intro l
  induction l with
  | nil => intro c cs h; simp [List.dropWhile] at h
  | cons a as ih =>
    intro c cs h
    rw [List.dropWhile_cons] at h
    split_ifs at h with ha
    · exact ih c cs h
    · cases h
      simpa using ha

/-- The synthetic placeholder "PID <pid>" is never empty. -/
theorem sprintfPID_ne_empty (pid : Int) : sprintfPID pid ≠ "" := by
  unfold sprintfPID
  intro he
  have h := congrArg String.length he
  rw [String.length_append] at h
  have h4 : ("PID " : String).length = 4 := rfl
  have h0 : ("" : String).length = 0 := rfl
  omega

/-- `filepath.Base` never returns the empty string: on the empty path it is
".", on an all-separator path "/", and otherwise the nonempty final
component. -/
theorem filepathBase_ne_empty (path : String) : filepathBase path ≠ "" := by
  unfold filepathBase
  split_ifs with h1 h2
  · intro he; exact absurd he (by decide)
  · intro he; exact absurd he (by decide)
  · apply stringMk_ne_empty
    intro he
    rw [List.reverse_eq_nil_iff] at he
    cases hcs : path.toList.reverse.dropWhile (fun c => c == '/') with
    | nil => exact h2 hcs
    | cons c cs =>
      rw [hcs] at he
      have hc : (fun c => c == '/') c = false :=
        dropWhile_head_false _ _ c cs hcs
      simp only [] at hc
      simp [List.takeWhile_cons, bne, hc] at he

/-- The resolved display name is never empty: each link of the fallback
chain produces a nonempty string. -/
theorem resolveName_ne_empty (p : Proc) : resolveName p ≠ "" := by
  unfold resolveName
  split_ifs with h1 h2
  · exact h1
  · exact h2
  · exact sprintfPID_ne_empty p.pid

/-- The listing loop returns at most `remaining` records. -/
theorem listLoop_length_le (query : String) (w : Bool) :
    ∀ (procs : List Proc) (remaining : Int),
      (listLoop query w remaining procs).length ≤ remaining.toNat := by
  intro procs
  induction procs with
  | nil => intro remaining; simp [listLoop]
  | cons p rest ih =>
    intro remaining
    unfold listLoop
    split_ifs with h1 h2
    · simp
    · exact le_trans (ih remaining) (le_refl _)
    · simp only [List.length_cons]
      have := ih (remaining - 1)
      omega

/-- Every record the listing loop returns is the record built for some
process of the table, with its name resolved by the fallback chain. -/
theorem listLoop_mem (query : String) (w : Bool) :
    ∀ (procs : List Proc) (remaining : Int) (r : ProcessInfo),
      r ∈ listLoop query w remaining procs →
        ∃ p ∈ procs, r = mkInfo p (resolveName p) w := by
  intro procs
  induction procs with
  | nil => intro remaining r hr; simp [listLoop] at hr
  | cons p rest ih =>
    intro remaining r hr
    unfold listLoop at hr
    split_ifs at hr with h1 h2
    · simp at hr
    · obtain ⟨q, hq, he⟩ := ih remaining r hr
      exact ⟨q, List.mem_cons_of_mem p hq, he⟩
    · rcases List.mem_cons.mp hr with he | hr2
      · exact ⟨p, List.mem_cons_self p rest, he⟩
      · obtain ⟨q, hq, he⟩ := ih (remaining - 1) r hr2
        exact ⟨q, List.mem_cons_of_mem p hq, he⟩

/-- With a nonempty (already lowered and trimmed) query, the listing loop
returns exactly the first `remaining` records among the processes whose
lowered resolved name contains the query. -/
theorem listLoop_filter_take (q : String) (w : Bool) (hq : q ≠ "") :
    ∀ (procs : List Proc) (remaining : Int),
      listLoop q w remaining procs =
        ((procs.filter (fun p => goContains (goToLower (resolveName p)) q)).take
          remaining.toNat).map (fun p => mkInfo p (resolveName p) w) := by
  intro procs
  induction procs with
  | nil => intro remaining; simp [listLoop]
  | cons p rest ih =>
    intro remaining
    unfold listLoop
    split_ifs with h1 h2
    · rw [Int.toNat_of_nonpos h1]
      simp
    · have hgc : goContains (goToLower (resolveName p)) q = false := by
        rcases hb : goContains (goToLower (resolveName p)) q with _ | _
        · rfl
        · exfalso
          apply absurd h2
          simp [hq, hb]
      rw [List.filter_cons_of_neg (by simp [hgc])]
      exact ih remaining
    · have hgc : goContains (goToLower (resolveName p)) q = true := by
        rcases hb : goContains (goToLower (resolveName p)) q with _ | _
        · exfalso
          apply h2
          simp [hq, hb]
        · rfl
      rw [List.filter_cons_of_pos (by simp [hgc])]
      have hpos : ¬ remaining ≤ 0 := h1
      have htn : remaining.toNat = (remaining - 1).toNat + 1 := by omega
      rw [htn, List.take_succ_cons, List.map_cons]
      rw [ih (remaining - 1)]

/-! ### Claim theorems: process lister -/

/-- C3: `ListProcesses` clamps its limit — a non-positive limit becomes
200, a limit above 500 becomes 500, and with `withMetrics` any limit above
100 (including the 200 default and the 500 cap) becomes 100 — and the
returned list never exceeds the clamped limit. -/
theorem ListProcesses_clamps_limit (limit : Int) (query : String)
    (withMetrics : Bool) (procs : List Proc) :
    clampListLimit limit withMetrics =
      (if withMetrics = true ∧ (limit ≤ 0 ∨ 100 < limit) then 100
       else if limit ≤ 0 then 200
       else if 500 < limit then 500
       else limit) ∧
    (ListProcesses limit query withMetrics procs).length ≤
      (clampListLimit limit withMetrics).toNat := by
  constructor
  · unfold clampListLimit
    cases withMetrics <;> simp <;> split_ifs <;> omega
  · unfold ListProcesses
    exact listLoop_length_le _ _ _ _

/-- C4: every record `ListProcesses` returns carries a non-empty name,
resolved by the fallback chain (reported name, else executable basename,
else "PID <pid>") for some process of the OS table. -/
theorem ListProcesses_name_nonempty (limit : Int) (query : String)
    (withMetrics : Bool) (procs : List Proc) (r : ProcessInfo)
    (hr : r ∈ ListProcesses limit query withMetrics procs) :
    r.Name ≠ "" ∧ ∃ p ∈ procs, r.Name = resolveName p := by
  obtain ⟨p, hp, he⟩ := listLoop_mem _ _ _ _ r hr
  have hname : r.Name = resolveName p := by rw [he]; rfl
  exact ⟨hname ▸ resolveName_ne_empty p, p, hp, hname⟩

/-- The process of the spec's C4 example: empty reported name, no
resolvable executable path. -/
def procNoName : Proc :=
  { pid := 42, name := "", exeRes := none, memRSS := none, statusRes := none
    cpuRes := none, connRes := none }

/-- C4 witness: for a process with empty name and no executable path the
single returned record is named "PID 42", which is non-empty and is the
fallback-chain resolution of that process. -/
theorem ListProcesses_name_nonempty_witness :
    (mkInfo procNoName (resolveName procNoName) false).Name ≠ "" ∧
    ∃ p ∈ [procNoName],
      (mkInfo procNoName (resolveName procNoName) false).Name = resolveName p :=
  ListProcesses_name_nonempty 10 "" false [procNoName]
    (mkInfo procNoName (resolveName procNoName) false)
    (by rw [show ListProcesses 10 "" false [procNoName] =
        [mkInfo procNoName (resolveName procNoName) false] from rfl]
        exact List.mem_singleton.mpr rfl)

/-- C5 counterexample: the query is trimmed of surrounding whitespace
before filtering, so for the non-empty query " " (one space) the filter is
disabled: a process named "Firefox" is returned although its resolved name
does not contain " " — the claim as stated, quantifying over every
non-empty query string, fails here. -/
theorem ListProcesses_query_literal_false :
    ListProcesses 10 " " false
        [{ pid := 3, name := "Firefox", exeRes := none, memRSS := none
           statusRes := none, cpuRes := none, connRes := none }] =
      [{ PID := 3, Name := "Firefox", RSSMB := 0, Status := ""
         CPUPercent := 0, ConnectionsCount := 0 }] ∧
    goContains (goToLower "Firefox") " " = false := by
  constructor
  · rfl
  · rfl

/-- C5 (amended): for every query whose lowered, trimmed form is non-empty,
`ListProcesses` returns exactly the first clamped-limit records among the
processes whose lowered resolved name contains that form; non-matching
processes are skipped without counting toward the limit. -/
theorem ListProcesses_query_filters (limit : Int) (query : String)
    (withMetrics : Bool) (procs : List Proc)
    (hq : goTrimSpace (goToLower query) ≠ "") :
    ListProcesses limit query withMetrics procs =
      ((procs.filter (fun p =>
          goContains (goToLower (resolveName p))
            (goTrimSpace (goToLower query)))).take
        (clampListLimit limit withMetrics).toNat).map
        (fun p => mkInfo p (resolveName p) withMetrics) := by
  unfold ListProcesses
  exact listLoop_filter_take _ _ hq procs _

/-- The three processes of the spec's C5 example. -/
def procsChromeExample : List Proc :=
  [{ pid := 1, name := "Chrome.exe", exeRes := none, memRSS := none
     statusRes := none, cpuRes := none, connRes := none },
   { pid := 2, name := "notchrome", exeRes := none, memRSS := none
     statusRes := none, cpuRes := none, connRes := none },
   { pid := 3, name := "Firefox", exeRes := none, memRSS := none
     statusRes := none, cpuRes := none, connRes := none }]

/-- C5 witness: on the spec's example — processes "Chrome.exe",
"notchrome", "Firefox" with query "chrome" — the filter equation of the
amended claim applies, and the result keeps exactly the first two names. -/
theorem ListProcesses_query_filters_witness :
    (ListProcesses 10 "chrome" false procsChromeExample =
      ((procsChromeExample.filter (fun p =>
          goContains (goToLower (resolveName p))
            (goTrimSpace (goToLower "chrome")))).take
        (clampListLimit 10 false).toNat).map
        (fun p => mkInfo p (resolveName p) false)) ∧
    (ListProcesses 10 "chrome" false procsChromeExample).map ProcessInfo.Name =
      ["Chrome.exe", "notchrome"] :=
  ⟨ListProcesses_query_filters 10 "chrome" false procsChromeExample
    (by decide), by rfl⟩

/-- C10: `ListTopProcessesByCPU` clamps its limit — non-positive becomes 5,
above 20 becomes 20 — and the returned list never exceeds 20 entries. -/
theorem ListTopProcessesByCPU_clamps_limit (limit : Int) (procs : List Proc) :
    clampTopLimit limit =
      (if limit ≤ 0 then 5 else if 20 < limit then 20 else limit) ∧
    (ListTopProcessesByCPU limit procs).length ≤ 20 := by
  constructor
  · simp only [clampTopLimit]
    split_ifs <;> omega
  · unfold ListTopProcessesByCPU
    simp only [List.length_map]
    calc (List.take (clampTopLimit limit).toNat _).length
        ≤ (clampTopLimit limit).toNat := List.length_take_le _ _
      _ ≤ 20 := by simp only [clampTopLimit]; split_ifs <;> omega

/-- Every scored entry `ListTopProcessesByCPU` builds carries its score in
`CPUPercent`, has a positive score, and the score is the measured CPU% of
some process of the table. -/
theorem mem_scoredList (procs : List Proc) (x : Scored)
    (hx : x ∈ procs.filterMap (fun p =>
      match p.cpuRes with
      | none => none
      | some pct => if pct ≤ 0 then none else some (mkScored p pct))) :
    x.info.CPUPercent = x.score ∧ 0 < x.score ∧
      ∃ p ∈ procs, p.cpuRes = some x.score := by
  rw [List.mem_filterMap] at hx
  obtain ⟨p, hp, hf⟩ := hx
  cases hc : p.cpuRes with
  | none => rw [hc] at hf; simp at hf
  | some pct =>
    simp only [hc] at hf
    split_ifs at hf with hle
    have hx2 := Option.some.inj hf
    subst hx2
    exact ⟨rfl, lt_of_not_le hle, p, hp, hc⟩

/-- C6 counterexample: two processes measured at the same positive CPU%
(10% each). `ListTopProcessesByCPU 5` returns both, so the result's CPU
column is [10, 10], which is not strictly descending — the claim's "strictly
sorted in descending order of CPU%" fails whenever two returned processes
tie. -/
theorem ListTopProcessesByCPU_strict_false :
    (ListTopProcessesByCPU 5
        [{ pid := 1, name := "a", exeRes := none, memRSS := none
           statusRes := none, cpuRes := some 10, connRes := none },
         { pid := 2, name := "b", exeRes := none, memRSS := none
           statusRes := none, cpuRes := some 10, connRes := none }]).map
      ProcessInfo.CPUPercent = [10, 10] ∧
    ¬ List.Chain' (fun a b : ℚ => b < a)
      ((ListTopProcessesByCPU 5
        [{ pid := 1, name := "a", exeRes := none, memRSS := none
           statusRes := none, cpuRes := some 10, connRes := none },
         { pid := 2, name := "b", exeRes := none, memRSS := none
           statusRes := none, cpuRes := some 10, connRes := none }]).map
        ProcessInfo.CPUPercent) := by
  have he : (ListTopProcessesByCPU 5
      [{ pid := 1, name := "a", exeRes := none, memRSS := none
         statusRes := none, cpuRes := some 10, connRes := none },
       { pid := 2, name := "b", exeRes := none, memRSS := none
         statusRes := none, cpuRes := some 10, connRes := none }]).map
      ProcessInfo.CPUPercent = [10, 10] := by decide
  refine ⟨he, ?_⟩
  rw [he, List.chain'_pair]
  norm_num

/-- C6 (amended): `ListTopProcessesByCPU` returns at most the clamped limit
of entries, sorted in non-increasing (descending, ties in unspecified
order) CPU%, and every returned entry has a positive measured CPU% taken
from some process of the table — processes whose CPU% query failed or
measured at most zero are excluded. -/
theorem ListTopProcessesByCPU_sorted_desc (limit : Int) (procs : List Proc) :
    (ListTopProcessesByCPU limit procs).length ≤ (clampTopLimit limit).toNat ∧
    (ListTopProcessesByCPU limit procs).Pairwise
      (fun a b => b.CPUPercent ≤ a.CPUPercent) ∧
    ∀ r ∈ ListTopProcessesByCPU limit procs,
      0 < r.CPUPercent ∧ ∃ p ∈ procs, p.cpuRes = some r.CPUPercent := by
  unfold ListTopProcessesByCPU
  refine ⟨?_, ?_, ?_⟩
  · simp only [List.length_map]
    exact List.length_take_le _ _
  · rw [List.pairwise_map]
    have hsorted : List.Pairwise scoredGE (sortDesc (procs.filterMap (fun p =>
        match p.cpuRes with
        | none => none
        | some pct => if pct ≤ 0 then none else some (mkScored p pct)))) :=
      List.sorted_insertionSort scoredGE _
    have htake := List.Pairwise.sublist
      (List.take_sublist (clampTopLimit limit).toNat _) hsorted
    refine htake.imp_of_mem ?_
    intro a b ha hb hab
    have hmemL : ∀ y : Scored, y ∈ (sortDesc (procs.filterMap (fun p =>
        match p.cpuRes with
        | none => none
        | some pct => if pct ≤ 0 then none else some (mkScored p pct)))).take
          (clampTopLimit limit).toNat →
        y.info.CPUPercent = y.score := by
      intro y hy
      have hy2 := List.take_subset _ _ hy
      have hy3 := (List.perm_insertionSort scoredGE _).mem_iff.mp hy2
      exact (mem_scoredList procs y hy3).1
    rw [hmemL a ha, hmemL b hb]
    exact hab
  · intro r hr
    rw [List.mem_map] at hr
    obtain ⟨x, hxtake, hxr⟩ := hr
    have hx2 := List.take_subset _ _ hxtake
    have hx3 := (List.perm_insertionSort scoredGE _).mem_iff.mp hx2
    obtain ⟨heq, hpos, p, hp, hcpu⟩ := mem_scoredList procs x hx3
    subst hxr
    rw [heq]
    exact ⟨hpos, p, hp, hcpu⟩

/-- The four processes of the spec's C6 example: CPU% measured at 45, 0,
12 and -1. -/
def procsTopExample : List Proc :=
  [{ pid := 1, name := "a", exeRes := none, memRSS := none
     statusRes := none, cpuRes := some 45, connRes := none },
   { pid := 2, name := "b", exeRes := none, memRSS := none
     statusRes := none, cpuRes := some 0, connRes := none },
   { pid := 3, name := "c", exeRes := none, memRSS := none
     statusRes := none, cpuRes := some 12, connRes := none },
   { pid := 4, name := "d", exeRes := none, memRSS := none
     statusRes := none, cpuRes := some (-1), connRes := none }]

/-- C6 witness: on the spec's example the result is exactly the 45% and 12%
entries in that order, and the amended theorem applies to the returned 45%
record: its CPU% is positive and is the measured CPU% of a table process. -/
theorem ListTopProcessesByCPU_sorted_desc_witness :
    ((ListTopProcessesByCPU 5 procsTopExample).map ProcessInfo.CPUPercent =
      [45, 12]) ∧
    (0 < ({ PID := 1, Name := "a", RSSMB := 0, Status := "", CPUPercent := 45
            ConnectionsCount := 0 } : ProcessInfo).CPUPercent ∧
      ∃ p ∈ procsTopExample, p.cpuRes =
        some ({ PID := 1, Name := "a", RSSMB := 0, Status := ""
                CPUPercent := 45
                ConnectionsCount := 0 } : ProcessInfo).CPUPercent) :=
  ⟨by decide,
   (ListTopProcessesByCPU_sorted_desc 5 procsTopExample).2.2
     { PID := 1, Name := "a", RSSMB := 0, Status := "", CPUPercent := 45
       ConnectionsCount := 0 }
     (by decide)⟩

/-! ### Claim theorems: GPU probe -/

/-- `strings.Split` never returns an empty slice: every branch of
`splitCommaSpace` yields at least one part. -/
theorem splitCommaSpace_ne_nil (cs : List Char) : splitCommaSpace cs ≠ [] := by
  unfold splitCommaSpace
  split
  · simp
  · simp
  · split <;> simp

/-- The utilization field as a function of position 0 alone (trim, strip a
"%" suffix, trim, parse with 0 on failure). -/
def utilOfPart (o : Option String) : Rat :=
  match o with
  | some s => goParseFloatVal (goTrimSpace (goTrimSuffix (goTrimSpace s) "%"))
  | none => 0

/-- The GPU name field as a function of position 1 alone (trim, strip
surrounding quotes; empty when the position is missing). -/
def nameOfPart (o : Option String) : String :=
  match o with
  | some s => goTrimChar (goTrimSpace s) (Char.ofNat 34)
  | none => ""

/-- The temperature field as a function of position 2 alone (trim, strip a
" C" suffix, trim, parse with 0 kept on failure). -/
def tempOfPart (o : Option String) : Int :=
  match o with
  | some s =>
    match goAtoi (goTrimSpace (goTrimSuffix (goTrimSpace s) " C")) with
    | some t => t
    | none => 0
  | none => 0

/-- A memory field as a function of its own position alone (`parseMiB` with
0 on failure or when the position is missing). -/
def memOfPart (o : Option String) : Nat :=
  match o with
  | some s => parseMiB s
  | none => 0

/-- The positional parse assembles each field from its own position only:
the whole-record refinement showing the five fields degrade independently. -/
theorem parseGPUParts_fields (parts : List String) (h : parts ≠ []) :
    parseGPUParts parts =
      { UtilPercent := utilOfPart (parts.get? 0)
        Name := nameOfPart (parts.get? 1)
        TempC := tempOfPart (parts.get? 2)
        MemoryUsedMB := memOfPart (parts.get? 3)
        MemoryTotalMB := memOfPart (parts.get? 4) } := by
  rcases parts with _ | ⟨a, _ | ⟨b, _ | ⟨c, _ | ⟨d, _ | ⟨e, rest⟩⟩⟩⟩⟩
  · exact absurd rfl h
  · rfl
  · rfl
  · rfl
  · rfl
  · have hl : (a :: b :: c :: d :: e :: rest : List String).length =
        rest.length + 5 := by simp
    unfold parseGPUParts
    rw [hl, if_neg (by omega), if_pos (by omega), if_pos (by omega),
      if_pos (by omega), if_pos (by omega)]
    rfl

/-- C7: the GPU probe never propagates an error — a failing or timed-out
`nvidia-smi` (`cmdResult = none`) and empty output both give the all-zero
sample — and on success each of the five comma-delimited fields is parsed
from its own position independently, so a malformed or missing trailing
field degrades to its zero/empty value alone while earlier fields still
parse (e.g. output "35, MyGPU" keeps utilization 35 and name "MyGPU" with
zero temperature and memory). -/
theorem getGPUStats_degrades :
    getGPUStats none = zeroGPUStats ∧
    (∀ out line, firstScanLine out = some line →
      getGPUStats (some out) =
        { UtilPercent :=
            utilOfPart ((goSplitCommaSpace (goTrimSpace line)).get? 0)
          Name := nameOfPart ((goSplitCommaSpace (goTrimSpace line)).get? 1)
          TempC := tempOfPart ((goSplitCommaSpace (goTrimSpace line)).get? 2)
          MemoryUsedMB :=
            memOfPart ((goSplitCommaSpace (goTrimSpace line)).get? 3)
          MemoryTotalMB :=
            memOfPart ((goSplitCommaSpace (goTrimSpace line)).get? 4) }) ∧
    getGPUStats (some "35, MyGPU") =
      { UtilPercent := 35, Name := "MyGPU", TempC := 0, MemoryUsedMB := 0
        MemoryTotalMB := 0 } := by
  refine ⟨rfl, ?_, by decide⟩
  intro out line hline
  simp only [getGPUStats]
  rw [hline]
  apply parseGPUParts_fields
  unfold goSplitCommaSpace
  simp [splitCommaSpace_ne_nil]

/-- C7 witness: on a success output whose fourth field is malformed
("bogus"), the per-position equation of the theorem applies: utilization,
name, temperature and total memory parse while the malformed used-memory
field alone degrades to zero. -/
theorem getGPUStats_degrades_witness :
    getGPUStats (some "35, MyGPU, 49, bogus, 12288") =
      { UtilPercent := utilOfPart (some "35"), Name := nameOfPart (some "MyGPU")
        TempC := tempOfPart (some "49"), MemoryUsedMB := memOfPart (some "bogus")
        MemoryTotalMB := memOfPart (some "12288") } :=
  getGPUStats_degrades.2.1 "35, MyGPU, 49, bogus, 12288"
    "35, MyGPU, 49, bogus, 12288" rfl

/-! ### Claim theorems: Collector lifecycle and snapshot atomicity -/

/-- Folding events from a state whose loop has exited changes neither the
cached snapshot nor the exited flag: the loop is the only writer. -/
theorem foldl_stepEvent_exited (more : List Event) :
    ∀ sigma : CollectorState, sigma.loopExited = true →
      (more.foldl stepEvent sigma).last = sigma.last ∧
      (more.foldl stepEvent sigma).loopExited = true := by
  induction more with
  | nil => intro sigma h; exact ⟨rfl, h⟩
  | cons e rest ih =>
    intro sigma h
    cases e with
    | publish s =>
      simp only [List.foldl_cons, stepEvent, h, if_pos]
      exact ih sigma h
    | stopSignal =>
      simp only [List.foldl_cons, stepEvent]
      exact ih _ h
    | observeStop =>
      simp only [List.foldl_cons, stepEvent]
      split_ifs with hs
      · exact ih _ rfl
      · exact ih sigma h

/-- The cached snapshot of any reachable state is the initial snapshot of
the start state or one of the snapshots published along the way. -/
theorem foldl_stepEvent_last_mem (es : List Event) :
    ∀ sigma : CollectorState,
      (es.foldl stepEvent sigma).last = sigma.last ∨
      (es.foldl stepEvent sigma).last ∈ publishedSnapshots es := by
  induction es with
  | nil => intro sigma; exact Or.inl rfl
  | cons e rest ih =>
    intro sigma
    cases e with
    | publish s =>
      simp only [List.foldl_cons, publishedSnapshots, List.filterMap_cons]
      rcases ih (stepEvent sigma (Event.publish s)) with h | h
      · rw [h]
        simp only [stepEvent]
        split_ifs
        · exact Or.inl rfl
        · exact Or.inr (List.mem_cons_self _ _)
      · exact Or.inr (List.mem_cons_of_mem _ h)
    | stopSignal =>
      simp only [List.foldl_cons, publishedSnapshots, List.filterMap_cons]
      rcases ih (stepEvent sigma Event.stopSignal) with h | h
      · exact Or.inl h
      · exact Or.inr h
    | observeStop =>
      simp only [List.foldl_cons, publishedSnapshots, List.filterMap_cons]
      rcases ih (stepEvent sigma Event.observeStop) with h | h
      · rw [h]
        simp only [stepEvent]
        split_ifs <;> exact Or.inl rfl
      · exact Or.inr h

/-- Publishing a list of samples records exactly those samples. -/
theorem publishedSnapshots_map_publish (ss : List Stats) :
    publishedSnapshots (ss.map Event.publish) = ss := by
  induction ss with
  | nil => rfl
  | cons t ts ih =>
    show t :: publishedSnapshots (ts.map Event.publish) = t :: ts
    rw [ih]

/-- C1 counterexample: `NewCollector` starts the sampling loop with
`go c.loop()` and returns at once, so in the interleaving where the
goroutine has not yet run, the first `Get()` after construction returns the
zero-valued `Stats` — whose `Timestamp` is 0 — contradicting the claim that
the first read is never the zero record. -/
theorem NewCollector_first_get_can_be_zero :
    CollectorGet (runEvents []) = zeroStats ∧ zeroStats.Timestamp = 0 :=
  ⟨rfl, rfl⟩

/-- C1 (amended): the first action of the background loop is one complete
sample, published before the loop waits for any tick — so as soon as any
nonempty prefix of the loop's own events has run, `Get()` returns a
published sample (one with the sampled nonzero timestamp), but the sample
is asynchronous with construction, not synchronous as claimed. -/
theorem loop_first_action_is_sample (first : Stats) (ticks : List Stats)
    (hfirst : first.Timestamp ≠ 0) (hticks : ∀ s ∈ ticks, s.Timestamp ≠ 0)
    (n : Nat) (hn : 0 < n) :
    (loopEvents first ticks).headD Event.stopSignal = Event.publish first ∧
    (CollectorGet (runEvents ((loopEvents first ticks).take n))).Timestamp ≠ 0 := by
  constructor
  · rfl
  · obtain ⟨m, rfl⟩ := Nat.exists_eq_succ_of_ne_zero (Nat.pos_iff_ne_zero.mp hn)
    unfold loopEvents runEvents
    rw [List.take_succ_cons]
    simp only [List.foldl_cons]
    have hstart : (stepEvent newCollectorState (Event.publish first)).last = first ∧
        (stepEvent newCollectorState (Event.publish first)).loopExited = false :=
      ⟨rfl, rfl⟩
    rcases foldl_stepEvent_last_mem ((ticks.map Event.publish).take m)
        (stepEvent newCollectorState (Event.publish first)) with h | h
    · rw [CollectorGet, h, hstart.1]; exact hfirst
    · rw [CollectorGet]
      have hsub : publishedSnapshots ((ticks.map Event.publish).take m) ⊆
          publishedSnapshots (ticks.map Event.publish) := by
        unfold publishedSnapshots
        intro x hx
        rw [List.mem_filterMap] at hx ⊢
        obtain ⟨e, he, hfe⟩ := hx
        exact ⟨e, List.take_subset _ _ he, hfe⟩
      have h2 := hsub h
      rw [publishedSnapshots_map_publish] at h2
      exact hticks _ h2

/-- The sample used by the C1 witness. -/
def sampleFirst : Stats := { zeroStats with Timestamp := 100, CPUPercent := 7 }

/-- C1 witness: with a first sample stamped at Unix time 100 and no further
ticks, after the loop's first event the cached snapshot's timestamp is
nonzero, and the loop's first event is indeed the publish of that sample. -/
theorem loop_first_action_is_sample_witness :
    (sampleFirst.Timestamp ≠ 0 ∧ (0 : Nat) < 1) ∧
    ((loopEvents sampleFirst []).headD Event.stopSignal =
        Event.publish sampleFirst ∧
      (CollectorGet (runEvents ((loopEvents sampleFirst []).take 1))).Timestamp ≠ 0) :=
  ⟨⟨by decide, by decide⟩,
   loop_first_action_is_sample sampleFirst [] (by decide) (by simp) 1 (by decide)⟩

/-- C2: snapshot reads are never torn — the record `Get()` returns is in
its entirety either the zero record the Collector starts with or one of the
snapshots published wholesale under the writer lock; and a `Get()` right
after one publish event returns exactly the new snapshot (or, once the loop
has exited, the unchanged previous one), never a mix of fields. -/
theorem Get_returns_whole_snapshot (es : List Event) :
    (CollectorGet (runEvents es) = zeroStats ∨
      CollectorGet (runEvents es) ∈ publishedSnapshots es) ∧
    ∀ s : Stats,
      CollectorGet (runEvents (es ++ [Event.publish s])) =
        (if (runEvents es).loopExited = true then CollectorGet (runEvents es)
         else s) := by
  constructor
  · exact foldl_stepEvent_last_mem es newCollectorState
  · intro s
    unfold runEvents CollectorGet
    rw [List.foldl_append]
    simp only [List.foldl_cons, List.foldl_nil, stepEvent]
    split_ifs <;> rfl

/-- C9: once the sampling loop has observed the stop signal and exited, no
later event changes the cached snapshot: every `Get()` after that point
returns the same record as before. -/
theorem no_publish_after_stop_observed (es more : List Event)
    (h : (runEvents es).loopExited = true) :
    CollectorGet (runEvents (es ++ more)) = CollectorGet (runEvents es) := by
  unfold runEvents CollectorGet
  rw [List.foldl_append]
  exact (foldl_stepEvent_exited more _ h).1

/-- The sample published before the stop in the C9 witness. -/
def sampleBeforeStop : Stats := { zeroStats with Timestamp := 200 }

/-- The sample a late tick would publish in the C9 witness. -/
def sampleAfterStop : Stats := { zeroStats with Timestamp := 300 }

/-- C9 witness: after publish, Stop() and the loop observing the stop, a
further tick's publish leaves `Get()` unchanged. -/
theorem no_publish_after_stop_observed_witness :
    CollectorGet (runEvents ([Event.publish sampleBeforeStop, Event.stopSignal,
        Event.observeStop] ++ [Event.publish sampleAfterStop])) =
      CollectorGet (runEvents [Event.publish sampleBeforeStop,
        Event.stopSignal, Event.observeStop]) :=
  no_publish_after_stop_observed
    [Event.publish sampleBeforeStop, Event.stopSignal, Event.observeStop]
    [Event.publish sampleAfterStop] rfl

/-- C8 counterexample: `EyeModule.Health` hard-codes `Healthy: true` and
`Message: "ok"`, so there are no two snapshots on which the returned
boolean differs — refuting the claim's assertion that the boolean/message
pair varies with the cached Snapshot's CPU and memory fields. -/
theorem Health_boolean_never_differs :
    ¬ ∃ s1 s2 : Stats, (Health s1).healthy ≠ (Health s2).healthy := by
  rintro ⟨s1, s2, hne⟩
  exact hne rfl

/-- C8 (amended): `Health` returns the constant pair `Healthy = true`,
`Message = "ok"`; only the details map is derived from the cached
Snapshot, and the whole response is a function of exactly the snapshot's
CPUPercent and MemoryPercent fields. -/
theorem Health_constant_pair (s t : Stats) :
    (Health s).healthy = true ∧ (Health s).message = "ok" ∧
    (s.CPUPercent = t.CPUPercent → s.MemoryPercent = t.MemoryPercent →
      Health s = Health t) := by
  refine ⟨rfl, rfl, ?_⟩
  intro h1 h2
  unfold Health
  rw [h1, h2]

/-- The snapshot pair of the C8 witness: same CPU and memory percentages,
different host name and timestamp. -/
def snapHostA : Stats :=
  { zeroStats with CPUPercent := 55, MemoryPercent := 40, Hostname := "a" }

/-- See `snapHostA`. -/
def snapHostB : Stats :=
  { zeroStats with
    CPUPercent := 55
    MemoryPercent := 40
    Hostname := "b"
    Timestamp := 9 }

/-- C8 witness: on two snapshots agreeing only on CPU and memory
percentages, Health is constant-true/"ok" and returns identical responses. -/
theorem Health_constant_pair_witness :
    (Health snapHostA).healthy = true ∧ (Health snapHostA).message = "ok" ∧
    Health snapHostA = Health snapHostB :=
  ⟨(Health_constant_pair snapHostA snapHostB).1,
   (Health_constant_pair snapHostA snapHostB).2.1,
   (Health_constant_pair snapHostA snapHostB).2.2 rfl rfl⟩

end NekkusEye
